import Mathlib

/-!
Verification development for the alchemy-mcp tool server.

The embedding below models the tool-dispatch core of `src/index.ts`
(the full five-tool deployment variant): the dispatcher switch with its
single try/catch boundary, the per-tool handlers, the data-URL payload
normalization used by `edit_image`, and the bounded video poll loop of
`generate_video`.  JavaScript strings are modelled as Lean `String`
(`List Char` where character-level manipulation is needed), JS
`undefined`-able values as `Option`, thrown exceptions as `Except`, and
every outbound `fetch` is recorded in an explicit call trace whose
responses are supplied by an environment record, so that "no external
call is made" is a statement about the trace.
-/

namespace AlchemyMCP

/-! ## JavaScript value helpers

`truthy` models JS truthiness for a possibly-undefined string
(`undefined`, `null` and `""` are falsy).  `jsOr` models `a || b`,
`strOrUndefined` models template interpolation of a possibly-undefined
value (which renders as the text "undefined"). -/

def truthy : Option String → Bool
  | none => false
  | some s => !s.isEmpty

def jsOr (a : Option String) (b : String) : String :=
  if truthy a then a.getD "" else b

def jsOrOpt (a b : Option String) : Option String :=
  if truthy a then a else b

def strOrUndefined (o : Option String) : String :=
  o.getD "undefined"

/-! ## Base64 (model of Node's `Buffer` codec)

`b64Encode` models `Buffer.from(bytes).toString('base64')` and
`b64Decode` models `Buffer.from(s, 'base64')` (RFC 4648 standard
alphabet; the decoder skips characters outside the alphabet, which is
Node's forgiving behavior, and drops the zero filler bits of a final
partial group).  Bytes are naturals below 256. -/

def charOfSextet (n : Nat) : Char :=
  if n < 26 then Char.ofNat (n + 65)
  else if n < 52 then Char.ofNat (n + 71)
  else if n < 62 then Char.ofNat (n - 52 + 48)
  else if n = 62 then '+'
  else '/'

def sextetOfChar (c : Char) : Option Nat :=
  let n := c.toNat
  if 65 ≤ n ∧ n ≤ 90 then some (n - 65)
  else if 97 ≤ n ∧ n ≤ 122 then some (n - 71)
  else if 48 ≤ n ∧ n ≤ 57 then some (n + 4)
  else if n = 43 then some 62
  else if n = 47 then some 63
  else none

def b64EncodeChunks : List Nat → List Nat
  | a :: b :: c :: rest =>
      a / 4 :: (a % 4 * 16 + b / 16) :: (b % 16 * 4 + c / 64) :: c % 64 ::
        b64EncodeChunks rest
  | [a, b] => [a / 4, a % 4 * 16 + b / 16, b % 16 * 4]
  | [a] => [a / 4, a % 4 * 16]
  | [] => []

def b64DecodeChunks : List Nat → List Nat
  | s1 :: s2 :: s3 :: s4 :: rest =>
      (s1 * 4 + s2 / 16) :: (s2 % 16 * 16 + s3 / 4) :: (s3 % 4 * 64 + s4) ::
        b64DecodeChunks rest
  | [s1, s2, s3] => [s1 * 4 + s2 / 16, s2 % 16 * 16 + s3 / 4]
  | [s1, s2] => [s1 * 4 + s2 / 16]
  | _ => []

def b64PadLen (n : Nat) : Nat :=
  if n % 3 = 1 then 2 else if n % 3 = 2 then 1 else 0

def b64Encode (bs : List Nat) : List Char :=
  (b64EncodeChunks bs).map charOfSextet ++ List.replicate (b64PadLen bs.length) '='

def b64Decode (s : List Char) : List Nat :=
  b64DecodeChunks (s.filterMap sextetOfChar)

/-! ## Data-URL payload normalization (from `editImage`, src/index.ts)

`decodeImageReference` embeds the data-URL branch of `editImage`:
`const [header, base64] = String(image_url).split(',')` followed by
`header.match(/data:([^;]+)/)?.[1] || 'image/png'` and
`Buffer.from(base64, 'base64')`.  When the input contains no comma the
destructured `base64` is `undefined` and `Buffer.from(undefined,
'base64')` raises a platform `TypeError`, which we record with the
`JsError.typeError` constructor (as opposed to `JsError.thrown`, a
deliberate `throw new Error(...)` from the handler code). -/

inductive JsError where
  | thrown (msg : String)
  | typeError (msg : String)
  deriving DecidableEq, Repr

def JsError.message : JsError → String
  | .thrown m => m
  | .typeError m => m

def splitOnComma : List Char → List (List Char)
  | [] => [[]]
  | c :: rest =>
    if c = ',' then [] :: splitOnComma rest
    else
      match splitOnComma rest with
      | s :: ss => (c :: s) :: ss
      | [] => [[c]]

/-- `startsWithChars p s` models `s.startsWith(p)` on JS strings. -/
def startsWithChars : List Char → List Char → Bool
  | [], _ => true
  | _ :: _, [] => false
  | p :: ps, c :: cs => p = c && startsWithChars ps cs

/-- Model of the first match of the JS regex `/data:([^;]+)/`: the
engine scans left to right for an occurrence of the literal `data:`
followed by at least one non-`;` character, and the capture group is the
maximal run of non-`;` characters after that occurrence. -/
def regexDataMime : List Char → Option (List Char)
  | [] => none
  | c :: rest =>
    if startsWithChars "data:".toList (c :: rest) then
      let cap := ((c :: rest).drop 5).takeWhile (fun x => x ≠ ';')
      if cap.isEmpty then regexDataMime rest else some cap
    else regexDataMime rest

def decodeImageReference (s : List Char) :
    Except JsError (List Nat × List Char) :=
  match splitOnComma s with
  | header :: b64 :: _ =>
    let mimeType := (regexDataMime header).getD "image/png".toList
    .ok (b64Decode b64, mimeType)
  | _ =>
    .error (.typeError
      "The first argument must be of type string or an instance of Buffer, ArrayBuffer, or Array or an Array-like Object. Received undefined")

/-- The template `data:<mimeType>;base64,<base64 bytes>` used to build a
caller-facing data-URL out of a binary-plus-mimetype pair. -/
def encodeAsDataUrl (mime : List Char) (bytes : List Nat) : List Char :=
  "data:".toList ++ mime ++ ";base64,".toList ++ b64Encode bytes

/-! ## Result envelope and tool registry -/

inductive ContentBlock where
  | text (s : String)
  deriving DecidableEq, Repr

structure ToolResult where
  content : List ContentBlock
  deriving DecidableEq, Repr

/-- `true` exactly when the result is the well-formed envelope
`{content: [{type: "text", text}]}`. -/
def isSingleTextBlock : ToolResult → Bool
  | ⟨[ContentBlock.text _]⟩ => true
  | _ => false

/-- A tool descriptor as advertised by the list-tools handler: its name
and the `required` list of its input schema. -/
structure ToolDescriptor where
  name : String
  required : List String
  deriving DecidableEq, Repr

/-- The five descriptors advertised by `setupToolHandlers` in
src/index.ts, with each schema's `required` list. -/
def toolRegistry : List ToolDescriptor :=
  [⟨"generate_image", ["prompt"]⟩,
   ⟨"edit_image", ["prompt", "image_url"]⟩,
   ⟨"generate_video", ["prompt"]⟩,
   ⟨"get_cultural_insights", ["city", "country"]⟩,
   ⟨"list_media", []⟩]

def toolNames : List String := toolRegistry.map ToolDescriptor.name

def requiredOf (tool : String) : List String :=
  ((toolRegistry.find? (fun d => d.name = tool)).map ToolDescriptor.required).getD []

/-- The argument mapping of a tool invocation.  Every key any handler
destructures is a field; an absent key is `none` (JS `undefined`). -/
structure Args where
  prompt : Option String := none
  model : Option String := none
  image_url : Option String := none
  aspect_ratio : Option String := none
  city : Option String := none
  country : Option String := none
  business_type : Option String := none
  target_audience : Option String := none
  type : Option String := none
  limit : Option Nat := none
  deriving DecidableEq, Repr

/-- Whether the argument mapping supplies a value for the given key. -/
def hasArg (a : Args) (key : String) : Bool :=
  if key = "prompt" then a.prompt.isSome
  else if key = "model" then a.model.isSome
  else if key = "image_url" then a.image_url.isSome
  else if key = "aspect_ratio" then a.aspect_ratio.isSome
  else if key = "city" then a.city.isSome
  else if key = "country" then a.country.isSome
  else if key = "business_type" then a.business_type.isSome
  else if key = "target_audience" then a.target_audience.isSome
  else if key = "type" then a.type.isSome
  else if key = "limit" then a.limit.isSome
  else false

structure Invocation where
  name : String
  args : Args
  deriving DecidableEq, Repr

/-! ## Upstream response shapes (§6 collaborator contracts)

Request payloads are not modelled: each endpoint's response is supplied
by the environment, and what the embedding tracks is which endpoints
get called and how each handler reacts to the response fields it reads. -/

structure ImagePayload where
  url : Option String := none
  mimeType : Option String := none
  imageBytes : Option String := none
  deriving DecidableEq, Repr

/-- Response of the image generate/edit endpoints:
`{image: {url?, mimeType?, imageBytes?}} | {error}` behind a fetch
`ok`/`status`. -/
structure ApiResponse where
  ok : Bool := true
  status : Nat := 200
  statusText : String := "OK"
  error : Option String := none
  image : Option ImagePayload := none
  deriving DecidableEq, Repr

/-- Response of fetching a remote source image in `editImage`;
`contentType` is the actual content type of the fetched resource (which
the code never reads). -/
structure FetchResponse where
  ok : Bool := true
  status : Nat := 200
  statusText : String := "OK"
  bytes : List Nat := []
  contentType : String := "image/png"
  deriving DecidableEq, Repr

/-- Response of the video-generation start endpoint `{name: operationId}`. -/
structure StartResponse where
  ok : Bool := true
  status : Nat := 200
  name : Option String := none
  deriving DecidableEq, Repr

/-- Response of one call to the video-operation-status endpoint:
`{done, response?, uris?}`, where `responseFileUri` is the deeply
optional-chained `response?.candidates?.[0]?.content?.parts?.[0]?.file_data?.file_uri`. -/
structure PollResponse where
  ok : Bool := true
  done : Bool := false
  responseFileUri : Option String := none
  uris : List String := []
  deriving DecidableEq, Repr

structure DownloadResponse where
  ok : Bool := true
  url : Option String := none
  deriving DecidableEq, Repr

structure CulturalAnalysis where
  profile : String := ""
  communication : String := ""
  aesthetics : String := ""
  deriving DecidableEq, Repr

structure QlooEntity where
  name : String
  deriving DecidableEq, Repr

/-- Response of the cultural-intelligence endpoint; the `analysis`
sub-objects are modelled by their rendered `JSON.stringify` texts, and
`brands`/`places` are `raw?.qloo?.brands`/`places` (absent lists are
`[]`, matching the `|| []` fallback). -/
structure CulturalResponse where
  ok : Bool := true
  status : Nat := 200
  error : Option String := none
  analysis : Option CulturalAnalysis := none
  brands : List QlooEntity := []
  places : List QlooEntity := []
  deriving DecidableEq, Repr

structure MediaItem where
  title : Option String := none
  type : String := "image"
  createdAt : Option String := none
  url : String := ""
  description : Option String := none
  deriving DecidableEq, Repr

structure MediaResponse where
  ok : Bool := true
  status : Nat := 200
  media : List MediaItem := []
  deriving DecidableEq, Repr

/-- The environment supplying every upstream response.  The video poll
endpoint is indexed by the attempt number, since successive polls of the
same operation observe different job states.  `formatDate` models the
platform's `new Date(x).toLocaleDateString()`. -/
structure Env where
  imageApi : String → ApiResponse
  fetchImage : String → FetchResponse
  editApi : ApiResponse
  videoStart : StartResponse
  videoPoll : Nat → PollResponse
  videoDownload : String → DownloadResponse
  culturalApi : CulturalResponse
  mediaApi : MediaResponse
  formatDate : String → String

/-! ## Tool handlers (src/index.ts)

Each handler returns `Except String ToolResult` (an `error` is a thrown
exception's message) paired with the trace of endpoints fetched, in
order. -/

/-- `model === 'imagen' ? '/api/imagen/generate' : '/api/gemini/generate'`. -/
def imageEndpoint (model : String) : String :=
  if model = "imagen" then "/api/imagen/generate" else "/api/gemini/generate"

/-- `data.image?.url || 'data:' + data.image?.mimeType + ';base64,' + data.image?.imageBytes`
(a JS template literal renders an undefined field as "undefined"). -/
def imageUrlOfResponse (r : ApiResponse) : String :=
  jsOr (r.image.bind ImagePayload.url)
    ("data:" ++ strOrUndefined (r.image.bind ImagePayload.mimeType) ++ ";base64," ++
      strOrUndefined (r.image.bind ImagePayload.imageBytes))

def generateImage (env : Env) (args : Args) :
    Except String ToolResult × List String :=
  let model := args.model.getD "gemini"
  let endpoint := imageEndpoint model
  let response := env.imageApi endpoint
  let calls := [endpoint]
  if !response.ok then
    (.error ("API error: " ++ toString response.status ++ " " ++ response.statusText), calls)
  else if truthy response.error then
    (.error (response.error.getD ""), calls)
  else
    let imageUrl := imageUrlOfResponse response
    (.ok ⟨[.text ("✅ Image generated successfully using " ++ model ++
      "\n\nPrompt: " ++ strOrUndefined args.prompt ++
      "\n\nImage URL: " ++ imageUrl)]⟩, calls)

/-- The normalized `File` built by `editImage` before the upstream call:
name `'image.png'`, a mime type and the raw bytes. -/
structure NormalizedFile where
  name : String
  mimeType : String
  bytes : List Nat
  deriving DecidableEq, Repr

/-- The image-reference normalization step of `editImage`: the data-URL
branch decodes in place (no fetch); the remote-URL branch fetches the
URL and tags the fetched bytes with the literal type `'image/png'`. -/
def editNormalize (env : Env) (image_url : String) :
    Except String NormalizedFile × List String :=
  if startsWithChars "data:".toList image_url.toList then
    match decodeImageReference image_url.toList with
    | .ok (bytes, mime) => (.ok ⟨"image.png", String.mk mime, bytes⟩, [])
    | .error e => (.error e.message, [])
  else
    let r := env.fetchImage image_url
    if !r.ok then
      (.error ("Failed to fetch image: " ++ r.statusText), [image_url])
    else
      (.ok ⟨"image.png", "image/png", r.bytes⟩, [image_url])

def editImage (env : Env) (args : Args) :
    Except String ToolResult × List String :=
  let image_url := strOrUndefined args.image_url
  match editNormalize env image_url with
  | (.error e, calls) => (.error e, calls)
  | (.ok _imageFile, calls) =>
    let response := env.editApi
    let calls := calls ++ ["/api/gemini/edit"]
    if !response.ok then
      (.error ("API error: " ++ toString response.status ++ " " ++ response.statusText), calls)
    else if truthy response.error then
      (.error (response.error.getD ""), calls)
    else
      let resultUrl := imageUrlOfResponse response
      (.ok ⟨[.text ("✅ Image edited successfully\n\nEdit instructions: " ++
        strOrUndefined args.prompt ++ "\n\nResult URL: " ++ resultUrl)]⟩, calls)

/-! ### Video generation and its bounded poll loop -/

def maxAttempts : Nat := 30

/-- Milliseconds waited before each poll: `setTimeout(resolve, 10000)`,
i.e. 10 time units of one second each. -/
def pollDelayMs : Nat := 10000

/-- The file reference extracted from a poll response:
`pollData.response?....file_uri || pollData.uris?.[0]`. -/
def pollFileUri (r : PollResponse) : Option String :=
  jsOrOpt r.responseFileUri r.uris.head?

/-- One iteration body of the poll loop: `some url` exactly when this
attempt makes the handler return (poll ok, `done` set, a truthy file
reference, and a successful download); `none` when the loop continues. -/
def pollStep (env : Env) (k : Nat) : Option String :=
  let r := env.videoPoll k
  if r.ok then
    if r.done then
      let fileUri := pollFileUri r
      if truthy fileUri then
        let d := env.videoDownload (fileUri.getD "")
        if d.ok then some (strOrUndefined d.url) else none
      else none
    else none
  else none

/-- Endpoints fetched during one poll attempt. -/
def pollStepCalls (env : Env) (k : Nat) : List String :=
  let r := env.videoPoll k
  "/api/veo/operation" ::
    (if r.ok && r.done && truthy (pollFileUri r) then ["/api/veo/download"] else [])

def videoSuccess (prompt url aspect : String) : ToolResult :=
  ⟨[.text ("✅ Video generated successfully\n\nPrompt: " ++ prompt ++
    "\n\nVideo URL: " ++ url ++ "\n\nAspect Ratio: " ++ aspect)]⟩

def timeoutResult (opName : String) : ToolResult :=
  ⟨[.text ("⏳ Video generation started but timed out waiting for completion." ++
    "\n\nOperation: " ++ opName ++ "\n\nCheck the gallery in a few minutes.")]⟩

/-- Outcome of running the poll loop: the returned envelope, the number
of poll attempts performed, the total milliseconds spent in the
fixed pre-poll delays, and the endpoints fetched. -/
structure PollRun where
  result : ToolResult
  attempts : Nat
  waitedMs : Nat
  calls : List String
  deriving DecidableEq, Repr

/-- The `while (attempts < maxAttempts)` loop of `generateVideo`,
starting at attempt index `k` with `fuel` attempts of budget left.
Each attempt waits `pollDelayMs`, polls once, and either returns the
success envelope or continues; an exhausted budget yields the timeout
envelope carrying the operation id. -/
def pollLoopAux (env : Env) (prompt aspect opName : String) :
    Nat → Nat → PollRun
  | _, 0 => ⟨timeoutResult opName, 0, 0, []⟩
  | k, fuel + 1 =>
    match pollStep env k with
    | some url => ⟨videoSuccess prompt url aspect, 1, pollDelayMs, pollStepCalls env k⟩
    | none =>
      let rest := pollLoopAux env prompt aspect opName (k + 1) fuel
      ⟨rest.result, rest.attempts + 1, pollDelayMs + rest.waitedMs,
        pollStepCalls env k ++ rest.calls⟩

def generateVideo (env : Env) (args : Args) :
    Except String ToolResult × List String :=
  let prompt := strOrUndefined args.prompt
  let aspect_ratio := args.aspect_ratio.getD "16:9"
  let s := env.videoStart
  let calls := ["/api/veo/generate"]
  if !s.ok then
    (.error ("Generate API error: " ++ toString s.status), calls)
  else if !truthy s.name then
    (.error "No operation name returned from video generation", calls)
  else
    let operationName := s.name.getD ""
    let run := pollLoopAux env prompt aspect_ratio operationName 0 maxAttempts
    (.ok run.result, calls ++ run.calls)

/-! ### Cultural insights and media listing -/

def getCulturalInsights (env : Env) (args : Args) :
    Except String ToolResult × List String :=
  let r := env.culturalApi
  let calls := ["/api/cultural/intelligence"]
  if !r.ok then
    (.error ("Cultural API error: " ++ toString r.status), calls)
  else
    match r.analysis with
    | none => (.error (jsOr r.error "Cultural analysis failed"), calls)
    | some analysis =>
      let brands := r.brands.take 5
      let places := r.places.take 5
      (.ok ⟨[.text ("🌍 Cultural Insights for " ++ strOrUndefined args.city ++ ", " ++
        strOrUndefined args.country ++ "\n\n" ++
        "Profile: " ++ analysis.profile ++ "\n\n" ++
        "Communication: " ++ analysis.communication ++ "\n\n" ++
        "Aesthetics: " ++ analysis.aesthetics ++ "\n\n" ++
        "Popular Brands: " ++ String.intercalate ", " (brands.map QlooEntity.name) ++ "\n\n" ++
        "Notable Places: " ++ String.intercalate ", " (places.map QlooEntity.name))]⟩, calls)

def renderMediaItem (env : Env) (idx : Nat) (item : MediaItem) : String :=
  let date := if truthy item.createdAt then env.formatDate (item.createdAt.getD "")
              else "Unknown date"
  toString (idx + 1) ++ ". " ++ jsOr item.title "Untitled" ++ " (" ++ item.type ++ ")" ++
    "\n   📅 " ++ date ++ "\n   🔗 " ++ item.url ++
    "\n   📝 " ++ jsOr item.description "No description"

def listMedia (env : Env) (args : Args) :
    Except String ToolResult × List String :=
  let _type := args.type.getD "all"
  let _limit := args.limit.getD 10
  let r := env.mediaApi
  let calls := ["/api/media"]
  if !r.ok then
    (.error ("Media API error: " ++ toString r.status), calls)
  else
    let media := r.media
    if media.length = 0 then
      (.ok ⟨[.text "📂 No media found in gallery"]⟩, calls)
    else
      let mediaList := String.intercalate "\n\n"
        (media.enum.map (fun p => renderMediaItem env p.fst p.snd))
      (.ok ⟨[.text ("📂 Gallery (" ++ toString media.length ++ " items)\n\n" ++ mediaList)]⟩,
        calls)

/-! ## The dispatcher (the CallTool request handler) -/

/-- The `switch (request.params.name)` body, before the catch: each case
delegates to its handler, the default case throws `Unknown tool:`. -/
def runHandler (env : Env) (inv : Invocation) :
    Except String ToolResult × List String :=
  if inv.name = "generate_image" then generateImage env inv.args
  else if inv.name = "edit_image" then editImage env inv.args
  else if inv.name = "generate_video" then generateVideo env inv.args
  else if inv.name = "get_cultural_insights" then getCulturalInsights env inv.args
  else if inv.name = "list_media" then listMedia env inv.args
  else (.error ("Unknown tool: " ++ inv.name), [])

def errorResult (msg : String) : ToolResult :=
  ⟨[.text ("Error: " ++ msg)]⟩

/-- `dispatch` = the whole CallTool handler: run the switch inside the
single try/catch and render any thrown error as the `Error:` text
envelope. -/
def dispatch (env : Env) (inv : Invocation) : ToolResult × List String :=
  match runHandler env inv with
  | (.ok r, calls) => (r, calls)
  | (.error msg, calls) => (errorResult msg, calls)

/-! ## Codec lemmas -/

theorem sextet_rt : ∀ n, n < 64 → sextetOfChar (charOfSextet n) = some n := by decide

theorem sextet_ne_comma : ∀ n, n < 64 → charOfSextet n ≠ ',' := by decide

theorem pad_none : sextetOfChar '=' = none := by decide

theorem b64EncodeChunks_lt : ∀ (bs : List Nat), (∀ b ∈ bs, b < 256) →
    ∀ s ∈ b64EncodeChunks bs, s < 64
  | [], _, s, hs => by simp [b64EncodeChunks] at hs
  | [a], h, s, hs => by
      have ha := h a (by simp)
      simp [b64EncodeChunks] at hs
      rcases hs with h1 | h1 <;> omega
  | [a, b], h, s, hs => by
      have ha := h a (by simp)
      have hb := h b (by simp)
      simp [b64EncodeChunks] at hs
      rcases hs with h1 | h1 | h1 <;> omega
  | a :: b :: c :: rest, h, s, hs => by
      have ha := h a (by simp)
      have hb := h b (by simp)
      have hc := h c (by simp)
      have ih := b64EncodeChunks_lt rest (fun x hx => h x (by simp [hx]))
      simp [b64EncodeChunks] at hs
      rcases hs with h1 | h1 | h1 | h1 | h1
      · omega
      · omega
      · omega
      · omega
      · exact ih s h1

theorem b64Chunks_roundtrip : ∀ (bs : List Nat), (∀ b ∈ bs, b < 256) →
    b64DecodeChunks (b64EncodeChunks bs) = bs
  | [], _ => rfl
  | [a], h => by
      have ha := h a (by simp)
      simp [b64EncodeChunks, b64DecodeChunks]
      omega
  | [a, b], h => by
      have ha := h a (by simp)
      have hb := h b (by simp)
      simp [b64EncodeChunks, b64DecodeChunks]
      constructor <;> omega
  | a :: b :: c :: rest, h => by
      have ha := h a (by simp)
      have hb := h b (by simp)
      have hc := h c (by simp)
      have ih := b64Chunks_roundtrip rest (fun x hx => h x (by simp [hx]))
      simp [b64EncodeChunks, b64DecodeChunks, ih]
      refine ⟨?_, ?_, ?_⟩ <;> omega

theorem filterMap_sextet_map : ∀ (l : List Nat), (∀ s ∈ l, s < 64) →
    (l.map charOfSextet).filterMap sextetOfChar = l
  | [], _ => rfl
  | s :: rest, h => by
      have hs := h s (by simp)
      have ih := filterMap_sextet_map rest (fun x hx => h x (by simp [hx]))
      simp [List.filterMap_cons, sextet_rt s hs, ih]

theorem filterMap_pad (n : Nat) :
    (List.replicate n '=').filterMap sextetOfChar = [] := by
  induction n with
  | zero => rfl
  | succ k ih => simp [List.replicate_succ, List.filterMap_cons, pad_none, ih]

/-- Decoding a base64 encoding recovers the original bytes. -/
theorem b64_roundtrip (bs : List Nat) (h : ∀ b ∈ bs, b < 256) :
    b64Decode (b64Encode bs) = bs := by
  unfold b64Decode b64Encode
  rw [List.filterMap_append, filterMap_pad, List.append_nil,
    filterMap_sextet_map _ (b64EncodeChunks_lt bs h), b64Chunks_roundtrip bs h]

theorem b64Encode_no_comma (bs : List Nat) (h : ∀ b ∈ bs, b < 256) :
    ',' ∉ b64Encode bs := by
  unfold b64Encode
  intro hmem
  rcases List.mem_append.mp hmem with hm | hm
  · rcases List.mem_map.mp hm with ⟨s, hs, hcs⟩
    exact sextet_ne_comma s (b64EncodeChunks_lt bs h s hs) hcs
  · have heq := List.eq_of_mem_replicate hm
    simp at heq

theorem splitOnComma_no_comma : ∀ (l : List Char), ',' ∉ l → splitOnComma l = [l]
  | [], _ => rfl
  | c :: rest, h => by
      have hc : ¬(c = ',') := by
        rintro rfl
        exact h (List.mem_cons_self _ _)
      have ih := splitOnComma_no_comma rest (fun hm => h (List.mem_cons_of_mem c hm))
      simp [splitOnComma, hc, ih]

theorem splitOnComma_append : ∀ (l r : List Char), ',' ∉ l →
    splitOnComma (l ++ ',' :: r) = l :: splitOnComma r
  | [], r, _ => by simp [splitOnComma]
  | c :: rest, r, h => by
      have hc : ¬(c = ',') := by
        rintro rfl
        exact h (List.mem_cons_self _ _)
      have ih := splitOnComma_append rest r (fun hm => h (List.mem_cons_of_mem c hm))
      simp [splitOnComma, hc, ih]

theorem startsWithChars_append : ∀ (p r : List Char), startsWithChars p (p ++ r) = true
  | [], _ => rfl
  | c :: cs, r => by simp [startsWithChars, startsWithChars_append cs r]

theorem takeWhile_append_stop (p : Char → Bool) :
    ∀ (l : List Char) (y : Char) (r : List Char),
      (∀ x ∈ l, p x = true) → p y = false → (l ++ y :: r).takeWhile p = l
  | [], y, r, _, hy => by simp [List.takeWhile_cons, hy]
  | x :: rest, y, r, h, hy => by
      have hx := h x (by simp)
      have ih := takeWhile_append_stop p rest y r (fun a ha => h a (by simp [ha])) hy
      simp [List.takeWhile_cons, hx, ih]

theorem regexDataMime_prefix (mime rest : List Char) (hne : mime ≠ [])
    (hsemi : ∀ c ∈ mime, c ≠ ';') :
    regexDataMime ("data:".toList ++ mime ++ ';' :: rest) = some mime := by
  have hdl : "data:".toList = ['d', 'a', 't', 'a', ':'] := rfl
  have hsw : startsWithChars ['d', 'a', 't', 'a', ':']
      ('d' :: 'a' :: 't' :: 'a' :: ':' :: (mime ++ ';' :: rest)) = true := by
    have hh := startsWithChars_append "data:".toList (mime ++ ';' :: rest)
    rwa [hdl] at hh
  have htw : (mime ++ ';' :: rest).takeWhile (fun x => x ≠ ';') = mime := by
    refine takeWhile_append_stop _ mime ';' rest ?_ (by simp)
    intro x hx
    simp [hsemi x hx]
  rw [hdl]
  simp only [List.cons_append, List.nil_append]
  rw [regexDataMime]
  simp only [hdl, hsw, if_true]
  simp only [List.drop_succ_cons, List.drop_zero, htw]
  simp [hne]

/-- Encoding a binary-plus-mimetype pair as a data-URL and decoding it
back recovers the original bytes and mime type, for any well-formed mime
type (nonempty, no `;`, no `,`). -/
theorem decode_encode (mime : List Char) (bytes : List Nat)
    (hb : ∀ b ∈ bytes, b < 256) (hne : mime ≠ [])
    (hsemi : ∀ c ∈ mime, c ≠ ';') (hcomma : ',' ∉ mime) :
    decodeImageReference (encodeAsDataUrl mime bytes) =
      Except.ok (bytes, mime) := by
  have henc : encodeAsDataUrl mime bytes =
      ("data:".toList ++ mime ++ ";base64".toList) ++ ',' :: b64Encode bytes := by
    unfold encodeAsDataUrl
    have h1 : ";base64,".toList = ";base64".toList ++ [','] := rfl
    rw [h1]
    simp [List.append_assoc]
  have hnc : ',' ∉ ("data:".toList ++ mime ++ ";base64".toList) := by
    intro hm
    rcases List.mem_append.mp hm with hm1 | hm1
    · rcases List.mem_append.mp hm1 with hm2 | hm2
      · exact absurd hm2 (by decide)
      · exact hcomma hm2
    · exact absurd hm1 (by decide)
  have hsplit : splitOnComma (encodeAsDataUrl mime bytes) =
      ("data:".toList ++ mime ++ ";base64".toList) :: [b64Encode bytes] := by
    rw [henc, splitOnComma_append _ _ hnc,
      splitOnComma_no_comma _ (b64Encode_no_comma bytes hb)]
  have hmime : regexDataMime ("data:".toList ++ mime ++ ";base64".toList) = some mime := by
    have h2 : ";base64".toList = ';' :: "base64".toList := rfl
    rw [h2]
    exact regexDataMime_prefix mime _ hne hsemi
  unfold decodeImageReference
  rw [hsplit]
  simp only [hmime, Option.getD_some, b64_roundtrip bytes hb]

/-! ## Poll loop lemmas -/

theorem pollLoopAux_attempts_le (env : Env) (p a o : String) :
    ∀ (fuel k : Nat), (pollLoopAux env p a o k fuel).attempts ≤ fuel := by
  intro fuel
  induction fuel with
  | zero => intro k; simp [pollLoopAux]
  | succ n ih =>
    intro k
    cases hstep : pollStep env k with
    | some url => simp [pollLoopAux, hstep]
    | none =>
      simp only [pollLoopAux, hstep]
      exact Nat.succ_le_succ (ih (k + 1))

theorem pollLoopAux_waited (env : Env) (p a o : String) :
    ∀ (fuel k : Nat),
      (pollLoopAux env p a o k fuel).waitedMs =
        pollDelayMs * (pollLoopAux env p a o k fuel).attempts := by
  intro fuel
  induction fuel with
  | zero => intro k; simp [pollLoopAux]
  | succ n ih =>
    intro k
    cases hstep : pollStep env k with
    | some url => simp [pollLoopAux, hstep]
    | none =>
      simp only [pollLoopAux, hstep]
      rw [ih (k + 1)]
      ring

theorem pollLoopAux_timeout (env : Env) (p a o : String) :
    ∀ (fuel k : Nat), (∀ j, j < fuel → pollStep env (k + j) = none) →
      (pollLoopAux env p a o k fuel).result = timeoutResult o ∧
      (pollLoopAux env p a o k fuel).attempts = fuel := by
  intro fuel
  induction fuel with
  | zero => intro k _; simp [pollLoopAux]
  | succ n ih =>
    intro k h
    have h0 : pollStep env k = none := by
      have hh := h 0 (Nat.succ_pos n)
      simpa using hh
    have hrest : ∀ j, j < n → pollStep env (k + 1 + j) = none := by
      intro j hj
      have hh := h (j + 1) (Nat.succ_lt_succ hj)
      have harith : k + (j + 1) = k + 1 + j := by omega
      rwa [harith] at hh
    have ihr := ih (k + 1) hrest
    simp only [pollLoopAux, h0]
    exact ⟨ihr.1, by rw [ihr.2]⟩

theorem pollLoopAux_success (env : Env) (p a o : String) :
    ∀ (m fuel k : Nat) (url : String), m < fuel →
      pollStep env (k + m) = some url →
      (∀ j, j < m → pollStep env (k + j) = none) →
      (pollLoopAux env p a o k fuel).result = videoSuccess p url a ∧
      (pollLoopAux env p a o k fuel).attempts = m + 1 := by
  intro m
  induction m with
  | zero =>
    intro fuel k url hlt hstep _
    obtain ⟨n, rfl⟩ : ∃ n, fuel = n + 1 := ⟨fuel - 1, by omega⟩
    have h0 : pollStep env k = some url := by simpa using hstep
    simp [pollLoopAux, h0]
  | succ m ih =>
    intro fuel k url hlt hstep hnone
    obtain ⟨n, rfl⟩ : ∃ n, fuel = n + 1 := ⟨fuel - 1, by omega⟩
    have h0 : pollStep env k = none := by
      have hh := hnone 0 (Nat.succ_pos m)
      simpa using hh
    have hstep2 : pollStep env (k + 1 + m) = some url := by
      have harith : k + (m + 1) = k + 1 + m := by omega
      rwa [harith] at hstep
    have hnone2 : ∀ j, j < m → pollStep env (k + 1 + j) = none := by
      intro j hj
      have hh := hnone (j + 1) (Nat.succ_lt_succ hj)
      have harith : k + (j + 1) = k + 1 + j := by omega
      rwa [harith] at hh
    have ihr := ih n (k + 1) url (by omega) hstep2 hnone2
    simp only [pollLoopAux, h0]
    exact ⟨ihr.1, by rw [ihr.2]⟩

/-! ## Helper predicates and concrete environments -/

def isOkResult : Except String ToolResult → Bool
  | .ok _ => true
  | .error _ => false

/-- `true` when the result envelope is a single text block whose text
begins with `Error:`. -/
def startsWithError : ToolResult → Bool
  | ⟨[ContentBlock.text t]⟩ => startsWithChars "Error:".toList t.toList
  | _ => false

theorem startsWithError_errorResult (msg : String) :
    startsWithError (errorResult msg) = true := by
  have h1 : ("Error: " ++ msg).toList = "Error:".toList ++ (' ' :: msg.toList) := by
    simp only [String.toList, String.data_append]
    rfl
  show startsWithChars "Error:".toList ("Error: " ++ msg).toList = true
  rw [h1]
  exact startsWithChars_append _ _

def noArgs : Args := {}

/-- An environment in which every upstream endpoint answers with a
plain success (and the video job never reports done). -/
def envOk : Env where
  imageApi := fun _ => { image := some { url := some "https://x/y.png" } }
  fetchImage := fun _ => { bytes := [1, 2, 3], contentType := "image/jpeg" }
  editApi := { image := some { url := some "https://x/e.png" } }
  videoStart := { name := some "op-1" }
  videoPoll := fun _ => {}
  videoDownload := fun _ => { url := some "https://v/z.mp4" }
  culturalApi := { analysis := some {} }
  mediaApi := {}
  formatDate := fun s => s

/-- Like `envOk` but the image endpoint answers `{}`: HTTP success with
neither an `error` field nor an `image` payload. -/
def envNoPayload : Env := { envOk with imageApi := fun _ => {} }

/-- Like `envOk` but the video job stays pending for the first 29 polls
and completes (with a downloadable file reference) on the 30th. -/
def envMock29 : Env :=
  { envOk with videoPoll := fun k =>
      if k = 29 then { done := true, uris := ["files/abc"] } else {} }

/-- Like `envOk` but every poll reports `done` with no file reference. -/
def envDoneNoFile : Env :=
  { envOk with videoPoll := fun _ => { done := true } }

/-! ## Well-formedness of handler results -/

theorem pollLoopAux_result_single (env : Env) (p a o : String) :
    ∀ (fuel k : Nat), isSingleTextBlock (pollLoopAux env p a o k fuel).result = true := by
  intro fuel
  induction fuel with
  | zero => intro k; rfl
  | succ n ih =>
    intro k
    cases hstep : pollStep env k with
    | some url => simp [pollLoopAux, hstep, videoSuccess, isSingleTextBlock]
    | none =>
      simp only [pollLoopAux, hstep]
      exact ih (k + 1)

theorem generateImage_ok_single (env : Env) (args : Args) :
    ∀ r calls, generateImage env args = (Except.ok r, calls) →
      isSingleTextBlock r = true := by
  intro r calls h
  simp only [generateImage] at h
  split at h
  · simp at h
  · split at h
    · simp at h
    · simp only [Prod.mk.injEq, Except.ok.injEq] at h
      rw [← h.1]
      rfl

theorem editImage_ok_single (env : Env) (args : Args) :
    ∀ r calls, editImage env args = (Except.ok r, calls) →
      isSingleTextBlock r = true := by
  intro r calls h
  simp only [editImage] at h
  split at h
  · simp at h
  · split at h
    · simp at h
    · split at h
      · simp at h
      · simp only [Prod.mk.injEq, Except.ok.injEq] at h
        rw [← h.1]
        rfl

theorem generateVideo_ok_single (env : Env) (args : Args) :
    ∀ r calls, generateVideo env args = (Except.ok r, calls) →
      isSingleTextBlock r = true := by
  intro r calls h
  simp only [generateVideo] at h
  split at h
  · simp at h
  · split at h
    · simp at h
    · simp only [Prod.mk.injEq, Except.ok.injEq] at h
      rw [← h.1]
      exact pollLoopAux_result_single env _ _ _ maxAttempts 0

theorem getCulturalInsights_ok_single (env : Env) (args : Args) :
    ∀ r calls, getCulturalInsights env args = (Except.ok r, calls) →
      isSingleTextBlock r = true := by
  intro r calls h
  simp only [getCulturalInsights] at h
  split at h
  · simp at h
  · split at h
    · simp at h
    · simp only [Prod.mk.injEq, Except.ok.injEq] at h
      rw [← h.1]
      rfl

theorem listMedia_ok_single (env : Env) (args : Args) :
    ∀ r calls, listMedia env args = (Except.ok r, calls) →
      isSingleTextBlock r = true := by
  intro r calls h
  simp only [listMedia] at h
  split at h
  · simp at h
  · split at h
    · simp only [Prod.mk.injEq, Except.ok.injEq] at h
      rw [← h.1]
      rfl
    · simp only [Prod.mk.injEq, Except.ok.injEq] at h
      rw [← h.1]
      rfl

theorem runHandler_ok_single (env : Env) (inv : Invocation) :
    ∀ r calls, runHandler env inv = (Except.ok r, calls) →
      isSingleTextBlock r = true := by
  intro r calls h
  simp only [runHandler] at h
  split at h
  · exact generateImage_ok_single env inv.args r calls h
  · split at h
    · exact editImage_ok_single env inv.args r calls h
    · split at h
      · exact generateVideo_ok_single env inv.args r calls h
      · split at h
        · exact getCulturalInsights_ok_single env inv.args r calls h
        · split at h
          · exact listMedia_ok_single env inv.args r calls h
          · simp at h

/-- Arguments supplying a model value outside the declared
`{imagen, gemini}` enum. -/
def argsLlava : Args := { prompt := some "p", model := some "llava" }

/-! ## Claims -/

/-- C1: the spec claims that an invocation omitting a required parameter
of the resolved tool's schema fails with an Error-prefixed result before
any external call is made.  On src/index.ts this is false: invoking
`generate_image` with an empty argument map (no `prompt`, though the
advertised schema lists `prompt` as required) performs the upstream
fetch to `/api/gemini/generate` and, on upstream success, returns a
success envelope echoing `Prompt: undefined` — no Error-prefixed result
is produced at all. -/
theorem c1_missing_required_arg_still_calls_upstream :
    hasArg noArgs "prompt" = false ∧
    "prompt" ∈ requiredOf "generate_image" ∧
    (dispatch envOk ⟨"generate_image", noArgs⟩).2 = ["/api/gemini/generate"] ∧
    (dispatch envOk ⟨"generate_image", noArgs⟩).1 =
      ⟨[ContentBlock.text ("✅ Image generated successfully using gemini" ++
        "\n\nPrompt: undefined\n\nImage URL: https://x/y.png")]⟩ ∧
    startsWithError (dispatch envOk ⟨"generate_image", noArgs⟩).1 = false := by
  refine ⟨rfl, by decide, rfl, ?_, by decide⟩
  decide

/-- C2: dispatching an invocation whose tool name is not one of the
registered tool names returns the `Error: Unknown tool: <name>` text
envelope (which begins with `Error:`) and performs no external call. -/
theorem c2_unknown_tool_rejected (env : Env) (inv : Invocation)
    (h : inv.name ∉ toolNames) :
    (dispatch env inv).1 = errorResult ("Unknown tool: " ++ inv.name) ∧
    startsWithError (dispatch env inv).1 = true ∧
    (dispatch env inv).2 = [] := by
  have hn : ¬(inv.name = "generate_image") ∧ ¬(inv.name = "edit_image") ∧
      ¬(inv.name = "generate_video") ∧ ¬(inv.name = "get_cultural_insights") ∧
      ¬(inv.name = "list_media") := by
    simp [toolNames, toolRegistry] at h
    exact ⟨h.1, h.2.1, h.2.2.1, h.2.2.2.1, h.2.2.2.2⟩
  have hrun : runHandler env inv = (.error ("Unknown tool: " ++ inv.name), []) := by
    simp only [runHandler, hn.1, hn.2.1, hn.2.2.1, hn.2.2.2.1, hn.2.2.2.2, if_false]
  have hd : dispatch env inv = (errorResult ("Unknown tool: " ++ inv.name), []) := by
    simp only [dispatch, hrun]
  refine ⟨by rw [hd], ?_, by rw [hd]⟩
  rw [hd]
  exact startsWithError_errorResult _

/-- Witness for C2 at the concrete unknown tool name `bogus_tool`. -/
theorem c2_unknown_tool_rejected_witness :
    (dispatch envOk ⟨"bogus_tool", noArgs⟩).1 =
      errorResult ("Unknown tool: " ++ "bogus_tool") ∧
    startsWithError (dispatch envOk ⟨"bogus_tool", noArgs⟩).1 = true ∧
    (dispatch envOk ⟨"bogus_tool", noArgs⟩).2 = [] :=
  c2_unknown_tool_rejected envOk ⟨"bogus_tool", noArgs⟩ (by decide)

/-- C3: for every environment and every invocation the dispatcher
returns a well-formed single-text-block envelope (it is a total
function back to `ToolResult`, so no exception escapes to the transport
layer), and whenever the handler switch raises an error the dispatcher
returns exactly the `Error: <message>` envelope for it. -/
theorem c3_no_exception_escapes (env : Env) (inv : Invocation) :
    isSingleTextBlock (dispatch env inv).1 = true ∧
    (∀ msg calls, runHandler env inv = (Except.error msg, calls) →
      dispatch env inv = (errorResult msg, calls)) := by
  constructor
  · cases hrun : runHandler env inv with
    | mk res calls =>
      cases res with
      | ok r =>
        have hd : dispatch env inv = (r, calls) := by
          simp only [dispatch, hrun]
        rw [hd]
        exact runHandler_ok_single env inv r calls hrun
      | error msg =>
        have hd : dispatch env inv = (errorResult msg, calls) := by
          simp only [dispatch, hrun]
        rw [hd]
        rfl
  · intro msg calls hrun
    simp only [dispatch, hrun]

/-- Witness for C3 at a concrete erroring invocation. -/
theorem c3_no_exception_escapes_witness :
    isSingleTextBlock (dispatch envOk ⟨"bogus2", noArgs⟩).1 = true ∧
    dispatch envOk ⟨"bogus2", noArgs⟩ =
      (errorResult ("Unknown tool: " ++ "bogus2"), []) := by
  have h := c3_no_exception_escapes envOk ⟨"bogus2", noArgs⟩
  exact ⟨h.1, h.2 ("Unknown tool: " ++ "bogus2") [] rfl⟩

/-- C4: the video poll loop performs at most 30 attempts, waits the
fixed 10000 ms (10 one-second time units) before each attempt; if no
attempt completes it performs exactly 30 attempts and returns the
timeout envelope carrying the original operation id; if the first
completing attempt is attempt `k+1` (index `k`, `k < 30`) the loop
exits there with the success envelope. -/
theorem c4_poll_loop_budget (env : Env) (prompt aspect opName : String) :
    (pollLoopAux env prompt aspect opName 0 maxAttempts).attempts ≤ 30 ∧
    (pollLoopAux env prompt aspect opName 0 maxAttempts).waitedMs =
      pollDelayMs * (pollLoopAux env prompt aspect opName 0 maxAttempts).attempts ∧
    ((∀ j, j < 30 → pollStep env j = none) →
      (pollLoopAux env prompt aspect opName 0 maxAttempts).result = timeoutResult opName ∧
      (pollLoopAux env prompt aspect opName 0 maxAttempts).attempts = 30) ∧
    (∀ k url, k < 30 → pollStep env k = some url →
      (∀ j, j < k → pollStep env j = none) →
      (pollLoopAux env prompt aspect opName 0 maxAttempts).result =
        videoSuccess prompt url aspect ∧
      (pollLoopAux env prompt aspect opName 0 maxAttempts).attempts = k + 1) := by
  refine ⟨pollLoopAux_attempts_le env prompt aspect opName maxAttempts 0,
    pollLoopAux_waited env prompt aspect opName maxAttempts 0, ?_, ?_⟩
  · intro h
    refine pollLoopAux_timeout env prompt aspect opName maxAttempts 0 ?_
    intro j hj
    simpa using h j hj
  · intro k url hk hstep hnone
    refine pollLoopAux_success env prompt aspect opName k maxAttempts 0 url hk ?_ ?_
    · simpa using hstep
    · intro j hj
      simpa using hnone j hj

/-- Witness for C4: a mock that never completes times out after exactly
30 attempts, and a mock that is pending for 29 polls and completes on
the 30th returns the success envelope on attempt 30. -/
theorem c4_poll_loop_budget_witness :
    (pollLoopAux envOk "p" "16:9" "op-1" 0 maxAttempts).result = timeoutResult "op-1" ∧
    (pollLoopAux envOk "p" "16:9" "op-1" 0 maxAttempts).attempts = 30 ∧
    (pollLoopAux envMock29 "p" "16:9" "op-1" 0 maxAttempts).result =
      videoSuccess "p" "https://v/z.mp4" "16:9" ∧
    (pollLoopAux envMock29 "p" "16:9" "op-1" 0 maxAttempts).attempts = 30 := by
  have h1 := (c4_poll_loop_budget envOk "p" "16:9" "op-1").2.2.1 (fun j _ => rfl)
  have h2 := (c4_poll_loop_budget envMock29 "p" "16:9" "op-1").2.2.2 29 "https://v/z.mp4"
    (by omega) (by decide) (by decide)
  exact ⟨h1.1, h1.2, h2.1, h2.2⟩

/-- C5 counterexample: encoding the empty byte sequence with the empty
mime type and decoding the result yields mime type `image/png` (the
regex finds no capture and the `|| 'image/png'` default kicks in), not
the original empty mime type — so decode is not a left inverse of
encode on every byte-sequence/mime-type pair. -/
theorem c5_left_inverse_counterexample :
    decodeImageReference (encodeAsDataUrl [] []) =
      Except.ok ([], "image/png".toList) ∧
    ("image/png".toList == ([] : List Char)) = false := by
  constructor
  · rfl
  · decide

/-- C5 (amended): for every byte sequence and every well-formed mime
type — nonempty and containing neither `;` nor `,` — encoding as a
data-URL and then decoding yields the original bytes and mime type. -/
theorem c5_left_inverse_amended (mime : List Char) (bytes : List Nat)
    (hb : ∀ b ∈ bytes, b < 256) (hne : mime ≠ [])
    (hsemi : ∀ c ∈ mime, c ≠ ';') (hcomma : ',' ∉ mime) :
    decodeImageReference (encodeAsDataUrl mime bytes) =
      Except.ok (bytes, mime) :=
  decode_encode mime bytes hb hne hsemi hcomma

/-- Witness for the amended C5 at bytes `[1, 2, 3]` and mime
`image/png`. -/
theorem c5_left_inverse_amended_witness :
    decodeImageReference (encodeAsDataUrl "image/png".toList [1, 2, 3]) =
      Except.ok ([1, 2, 3], "image/png".toList) :=
  c5_left_inverse_amended "image/png".toList [1, 2, 3]
    (by decide) (by decide) (by decide) (by decide)

/-- C6: on a data-URL with no comma, the decode path fails with the
platform `TypeError` raised by `Buffer.from(undefined, 'base64')` — an
unrelated platform exception, not one of the system's own
`throw new Error(...)` failures, contradicting the spec's requirement
of a defined error. -/
theorem c6_no_comma_platform_typeerror :
    decodeImageReference "data:image/png;base64".toList =
      Except.error (JsError.typeError
        "The first argument must be of type string or an instance of Buffer, ArrayBuffer, or Array or an Array-like Object. Received undefined") := by
  rfl

/-- C7: the spec claims ImageGenerate fails with a GenerationError when
the upstream response contains no image payload.  On src/index.ts this
is false: a `200 OK` response with neither an `error` field nor an
`image` payload produces a success envelope whose image URL is the
garbage string `data:undefined;base64,undefined`. -/
theorem c7_missing_payload_reported_success :
    (envNoPayload.imageApi "/api/gemini/generate").error = none ∧
    (envNoPayload.imageApi "/api/gemini/generate").image = none ∧
    generateImage envNoPayload { prompt := some "a fox" } =
      (Except.ok ⟨[ContentBlock.text ("✅ Image generated successfully using gemini" ++
        "\n\nPrompt: a fox\n\nImage URL: data:undefined;base64,undefined")]⟩,
        ["/api/gemini/generate"]) := by
  refine ⟨rfl, rfl, ?_⟩
  rfl

/-- C8: a poll attempt whose response reports a transport failure
(`ok = false`), or reports `done` with no file reference at all, makes
the loop continue to the next attempt (one more attempt consumed)
instead of aborting the invocation. -/
theorem c8_lenient_poll_continues (env : Env) (p a o : String) (k fuel : Nat)
    (h : (env.videoPoll k).ok = false ∨
      ((env.videoPoll k).done = true ∧ (env.videoPoll k).responseFileUri = none ∧
        (env.videoPoll k).uris = [])) :
    (pollLoopAux env p a o k (fuel + 1)).result =
      (pollLoopAux env p a o (k + 1) fuel).result ∧
    (pollLoopAux env p a o k (fuel + 1)).attempts =
      (pollLoopAux env p a o (k + 1) fuel).attempts + 1 := by
  have hstep : pollStep env k = none := by
    unfold pollStep pollFileUri jsOrOpt truthy
    rcases h with h | ⟨hd, hr, hu⟩
    · simp [h]
    · simp [hd, hr, hu]
  simp [pollLoopAux, hstep]

/-- Witness for C8 at a concrete environment whose polls report `done`
with no file reference. -/
theorem c8_lenient_poll_continues_witness :
    (pollLoopAux envDoneNoFile "p" "16:9" "op" 0 (29 + 1)).result =
      (pollLoopAux envDoneNoFile "p" "16:9" "op" 1 29).result ∧
    (pollLoopAux envDoneNoFile "p" "16:9" "op" 0 (29 + 1)).attempts =
      (pollLoopAux envDoneNoFile "p" "16:9" "op" 1 29).attempts + 1 :=
  c8_lenient_poll_continues envDoneNoFile "p" "16:9" "op" 0 29
    (Or.inr ⟨rfl, rfl, rfl⟩)

/-- C9: `generate_image` routes exactly the model value `imagen` to the
imagen endpoint; any other supplied model value — including values
outside the declared enum — is routed to the gemini endpoint, the call
is made, and no validation error is raised for the out-of-enum value
(the handler still succeeds whenever the gemini response is good). -/
theorem c9_out_of_enum_model_falls_back_to_gemini (env : Env) (args : Args)
    (m : String) (hm : args.model = some m) (h : ¬(m = "imagen")) :
    imageEndpoint m = "/api/gemini/generate" ∧
    imageEndpoint "imagen" = "/api/imagen/generate" ∧
    (generateImage env args).2 = ["/api/gemini/generate"] ∧
    ((env.imageApi "/api/gemini/generate").ok = true →
      truthy (env.imageApi "/api/gemini/generate").error = false →
      isOkResult (generateImage env args).1 = true) := by
  have hend : imageEndpoint m = "/api/gemini/generate" := by
    simp [imageEndpoint, h]
  refine ⟨hend, rfl, ?_, ?_⟩
  · simp only [generateImage, hm, Option.getD_some, hend]
    split
    · rfl
    · split
      · rfl
      · rfl
  · intro hok herr
    simp only [generateImage, hm, Option.getD_some, hend, hok, herr,
      Bool.not_true, if_false]
    simp [isOkResult]

/-- Witness for C9 at the out-of-enum model value `llava`. -/
theorem c9_out_of_enum_model_falls_back_to_gemini_witness :
    imageEndpoint "llava" = "/api/gemini/generate" ∧
    imageEndpoint "imagen" = "/api/imagen/generate" ∧
    (generateImage envOk argsLlava).2 = ["/api/gemini/generate"] ∧
    isOkResult (generateImage envOk argsLlava).1 = true := by
  have h := c9_out_of_enum_model_falls_back_to_gemini envOk argsLlava "llava"
    rfl (by decide)
  exact ⟨h.1, h.2.1, h.2.2.1, h.2.2.2 rfl rfl⟩

/-- C10: in the `edit_image` normalization, a source image given as a
remote URL (not a data-URL) is, after a successful fetch, always tagged
with mime type `image/png` whatever the fetched resource's actual
content type; the header mime type is honored only in the data-URL
branch (third conjunct, via the round-trip of well-formed data-URLs). -/
theorem c10_remote_fetch_tagged_png (env : Env) (url : String)
    (hnd : startsWithChars "data:".toList url.toList = false)
    (hok : (env.fetchImage url).ok = true) :
    (editNormalize env url).1 =
      Except.ok ⟨"image.png", "image/png", (env.fetchImage url).bytes⟩ ∧
    (editNormalize env url).2 = [url] ∧
    (∀ (mime : List Char) (bytes : List Nat), (∀ b ∈ bytes, b < 256) →
      mime ≠ [] → (∀ c ∈ mime, c ≠ ';') → ',' ∉ mime →
      (editNormalize env (String.mk (encodeAsDataUrl mime bytes))).1 =
        Except.ok ⟨"image.png", String.mk mime, bytes⟩) := by
  refine ⟨?_, ?_, ?_⟩
  · simp only [editNormalize, hnd, Bool.false_eq_true, if_false, hok,
      Bool.not_true, if_false]
  · simp only [editNormalize, hnd, Bool.false_eq_true, if_false, hok,
      Bool.not_true, if_false]
  · intro mime bytes hb hne hsemi hcomma
    have htl : (String.mk (encodeAsDataUrl mime bytes)).toList =
        encodeAsDataUrl mime bytes := rfl
    have hsw : startsWithChars "data:".toList (encodeAsDataUrl mime bytes) = true := by
      unfold encodeAsDataUrl
      have hassoc : "data:".toList ++ mime ++ ";base64,".toList ++ b64Encode bytes =
          "data:".toList ++ (mime ++ ";base64,".toList ++ b64Encode bytes) := by
        simp [List.append_assoc]
      rw [hassoc]
      exact startsWithChars_append _ _
    simp only [editNormalize, htl, hsw, if_true,
      decode_encode mime bytes hb hne hsemi hcomma]

/-- Witness for C10 at a concrete remote URL (whose fetch response has
content type `image/jpeg` yet is tagged `image/png`) and at a concrete
well-formed data-URL (whose header mime `image/jpeg` is honored). -/
theorem c10_remote_fetch_tagged_png_witness :
    (editNormalize envOk "https://img/src.jpg").1 =
      Except.ok ⟨"image.png", "image/png", (envOk.fetchImage "https://img/src.jpg").bytes⟩ ∧
    (editNormalize envOk "https://img/src.jpg").2 = ["https://img/src.jpg"] ∧
    (editNormalize envOk (String.mk (encodeAsDataUrl "image/jpeg".toList [9, 8]))).1 =
      Except.ok ⟨"image.png", String.mk "image/jpeg".toList, [9, 8]⟩ := by
  have h := c10_remote_fetch_tagged_png envOk "https://img/src.jpg" (by decide) rfl
  exact ⟨h.1, h.2.1, h.2.2 "image/jpeg".toList [9, 8]
    (by decide) (by decide) (by decide) (by decide)⟩

end AlchemyMCP
